import Mathlib

/-!
Verification of the bisheng LangGraph workflow engine
(`src/backend/bisheng/langgraph/...`).

The development shallowly embeds the engine's data model and the node
behaviours the claims refer to:

* `PyVal` models the Python values stored in the workflow state's
  `variables` mapping (strings, ints, bools, `None`, nested dicts).
* `LGState` / `StateUpdate` / `applyUpdate` model `LangGraphState`
  (`engine/state_schema.py`) and the per-field reducers applied by
  LangGraph when a node returns a partial update.
* Node behaviours (`conditionRoute`, `loopRoute`, `reflectionRoute`,
  `humanExecute`, `subgraphExecute`, the map-reduce fill loop, and the
  builder's parsing / recursion-limit computation) are translated from
  the corresponding Python sources.

Modelling conventions: Python dicts become association lists with
first-occurrence lookup (`alookup`); Python `float(...)` becomes an
exact-rational decimal parser (`parseFloatStr`; exponent/`inf` forms are
outside the modelled domain, and binary-float rounding is idealised as
exact rational arithmetic); a raised-and-caught exception becomes the
`Bool`/`Option`/`Except` value the `except` branch produces.
-/

/-- Python values that can appear in the workflow state's `variables`
mapping: `None`, booleans, (unbounded) integers, strings, and nested
string-keyed dicts. -/
inductive PyVal where
  | vnone : PyVal
  | vbool : Bool → PyVal
  | vint : Int → PyVal
  | vstr : String → PyVal
  | vdict : List (String × PyVal) → PyVal
deriving Repr

/-- A single-quote character, used when rendering Python `str(dict)`. -/
def quoteCh : String := String.mk [Char.ofNat 39]

mutual

/-- Python `str(...)` on a `PyVal`. -/
def pyStrVal : PyVal → String
  | PyVal.vnone => "None"
  | PyVal.vbool true => "True"
  | PyVal.vbool false => "False"
  | PyVal.vint n => toString n
  | PyVal.vstr s => s
  | PyVal.vdict d => "\x7b" ++ pyReprEntries d ++ "\x7d"

/-- Python `repr(...)` on a `PyVal` (used inside dict rendering; string
escaping is idealised as plain quoting). -/
def pyReprVal : PyVal → String
  | PyVal.vnone => "None"
  | PyVal.vbool true => "True"
  | PyVal.vbool false => "False"
  | PyVal.vint n => toString n
  | PyVal.vstr s => quoteCh ++ s ++ quoteCh
  | PyVal.vdict d => "\x7b" ++ pyReprEntries d ++ "\x7d"

/-- Renders the entries of a Python dict, comma separated. -/
def pyReprEntries : List (String × PyVal) → String
  | [] => ""
  | (k, v) :: rest =>
    quoteCh ++ k ++ quoteCh ++ ": " ++ pyReprVal v ++
      (if rest.isEmpty then "" else ", ") ++ pyReprEntries rest

end

/-- Python truthiness (`bool(...)`) on a `PyVal`. -/
def pyTruthy : PyVal → Bool
  | PyVal.vnone => false
  | PyVal.vbool b => b
  | PyVal.vint n => n != 0
  | PyVal.vstr s => !s.isEmpty
  | PyVal.vdict d => !d.isEmpty

/-- Digits-to-number accumulator for the decimal parser. -/
def digitsToNat (cs : List Char) : Nat :=
  cs.foldl (fun a c => a * 10 + (c.toNat - 48)) 0

/-- Strips leading and trailing whitespace from a char list (Python
`str.strip()` as performed by `float(...)` on its argument). -/
def trimChars (cs : List Char) : List Char :=
  ((cs.dropWhile Char.isWhitespace).reverse.dropWhile Char.isWhitespace).reverse

/-- Python `float(s)` on a string, restricted to plain decimal literals
(optional sign, digits, optional fractional part, surrounding
whitespace); `none` models a raised `ValueError`. -/
def parseFloatStr (s : String) : Option Rat :=
  let cs := trimChars s.toList
  let sign : Int :=
    match cs with
    | '-' :: _ => -1
    | _ => 1
  let cs2 :=
    match cs with
    | '-' :: rest => rest
    | '+' :: rest => rest
    | l => l
  let intPart := cs2.takeWhile Char.isDigit
  let rest := cs2.dropWhile Char.isDigit
  match rest with
  | [] =>
    if intPart.isEmpty then Option.none
    else some ((sign : Rat) * (digitsToNat intPart : Rat))
  | '.' :: fracCs =>
    let fracPart := fracCs.takeWhile Char.isDigit
    let rest2 := fracCs.dropWhile Char.isDigit
    if !rest2.isEmpty then Option.none
    else if intPart.isEmpty && fracPart.isEmpty then Option.none
    else some ((sign : Rat) *
      ((digitsToNat intPart : Rat) +
        (digitsToNat fracPart : Rat) / ((10 : Rat) ^ fracPart.length)))
  | _ => Option.none

/-- Python `float(...)` on a `PyVal`; `none` models a raised
`ValueError`/`TypeError` (caught by the condition node and turned into
`False`). -/
def pyFloat : PyVal → Option Rat
  | PyVal.vnone => Option.none
  | PyVal.vbool b => some (if b then 1 else 0)
  | PyVal.vint n => some (n : Rat)
  | PyVal.vstr s => parseFloatStr s
  | PyVal.vdict _ => Option.none

/-- Does the first char list start with the second? (structurally
recursive so that concrete instances reduce inside the kernel). -/
def charsStartWith : List Char → List Char → Bool
  | _, [] => true
  | [], _ :: _ => false
  | a :: as, b :: bs => a == b && charsStartWith as bs

/-- Does the first char list contain the second as a contiguous run? -/
def charsContain : List Char → List Char → Bool
  | _, [] => true
  | [], _ :: _ => false
  | a :: as, b :: bs =>
    charsStartWith (a :: as) (b :: bs) || charsContain as (b :: bs)

/-- Python `b in a` on strings (substring test; the empty string is
contained in every string). -/
def strContains (a b : String) : Bool :=
  charsContain a.toList b.toList

/-- First-occurrence lookup in an association list (Python `dict.get`). -/
def alookup {α : Type} (l : List (String × α)) (k : String) : Option α :=
  match l with
  | [] => Option.none
  | (k2, v) :: rest => if k2 == k then some v else alookup rest k

/-- Python `left.copy(); merged.update(right)` from
`engine/state_schema.py` (`merge_dicts`): keys of `left` keep their
position with values overridden by `right`, then keys only in `right`
are appended. -/
def mergeDicts {α : Type} (l r : List (String × α)) : List (String × α) :=
  l.map (fun p => (p.1, (alookup r p.1).getD p.2)) ++
    r.filter (fun p => (alookup l p.1).isNone)

/-- The workflow execution state, from `LangGraphState` in
`engine/state_schema.py`.  `messages` are abstracted to their text. -/
structure LGState where
  messages : List String
  vars : List (String × List (String × PyVal))
  current_agent : String
  iteration_count : Int
  intermediate_results : List PyVal
  human_feedback : Option String
  final_output : Option String
  metadata : List (String × PyVal)

/-- `DEFAULT_STATE` from `engine/state_schema.py`. -/
def defaultState : LGState :=
  ⟨[], [], "", 0, [], Option.none, Option.none, []⟩

/-- A partial state update as returned by a node's `execute`: `none`
for a field means the key is absent from the returned dict. -/
structure StateUpdate where
  messages : Option (List String)
  vars : Option (List (String × List (String × PyVal)))
  current_agent : Option String
  iteration_count : Option Int
  intermediate_results : Option (List PyVal)
  human_feedback : Option (Option String)
  final_output : Option (Option String)
  metadata : Option (List (String × PyVal))

/-- The empty partial update (`return {}`). -/
def emptyUpdate : StateUpdate :=
  ⟨Option.none, Option.none, Option.none, Option.none,
   Option.none, Option.none, Option.none, Option.none⟩

/-- Applies a partial update to the state with the per-field reducers of
`LangGraphState`: `add_messages` (abstracted to append), `merge_dicts`
for `variables`/`metadata`, `operator.add` for `iteration_count`,
`append_list` for `intermediate_results`, and plain replacement for the
un-annotated fields. -/
def applyUpdate (s : LGState) (u : StateUpdate) : LGState where
  messages := s.messages ++ u.messages.getD []
  vars :=
    match u.vars with
    | some v => mergeDicts s.vars v
    | Option.none => s.vars
  current_agent := u.current_agent.getD s.current_agent
  iteration_count := s.iteration_count + u.iteration_count.getD 0
  intermediate_results := s.intermediate_results ++ u.intermediate_results.getD []
  human_feedback := u.human_feedback.getD s.human_feedback
  final_output := u.final_output.getD s.final_output
  metadata :=
    match u.metadata with
    | some m => mergeDicts s.metadata m
    | Option.none => s.metadata

/-- Everything before the first dot of a char list. -/
def takeUntilDot : List Char → List Char
  | [] => []
  | c :: rest => if c == '.' then [] else c :: takeUntilDot rest

/-- Everything after the first dot of a char list. -/
def dropThroughDot : List Char → List Char
  | [] => []
  | c :: rest => if c == '.' then rest else dropThroughDot rest

/-- Node id of a dotted `node_id.key` variable reference: the part
before the first dot (`var_ref.split` with limit 1 in
`BaseLGNode.get_variable`). -/
def refNodeId (s : String) : String := String.mk (takeUntilDot s.toList)

/-- Key part of a dotted `node_id.key` variable reference: everything
after the first dot. -/
def refKey (s : String) : String := String.mk (dropThroughDot s.toList)

/-- `BaseLGNode.get_variable`: dotted references are resolved inside the
referenced node's namespace (missing entries give `None`); a bare name
returns the whole namespace dict, or `None` when absent. -/
def getVariable (st : LGState) (ref : String) : PyVal :=
  if ref.toList.contains '.' then
    let nodeVars := (alookup st.vars (refNodeId ref)).getD []
    (alookup nodeVars (refKey ref)).getD PyVal.vnone
  else
    match alookup st.vars ref with
    | some d => PyVal.vdict d
    | Option.none => PyVal.vnone

/-- `BaseLGNode.set_variable`: a partial update writing one key into
this node's namespace. -/
def setVariable (nodeId key : String) (v : PyVal) : StateUpdate :=
  ⟨Option.none, some [(nodeId, [(key, v)])], Option.none, Option.none,
   Option.none, Option.none, Option.none, Option.none⟩

/-- One `(left_var, operator, right_value)` condition of a condition
node's case (`nodes/condition_node.py`); field values are the results of
the `.get(..., default)` calls in `ConditionNode.route`. -/
structure CCond where
  left_var : String
  operator : String
  right_value : String
deriving DecidableEq

/-- One case of a condition node: an id (matched against target node
ids), a list of conditions, and an `and`/`or` combination logic. -/
structure CCase where
  id : String
  conditions : List CCond
  logic : String
deriving DecidableEq

/-- Configuration of a condition node (`cases`, `default_target`). -/
structure ConditionConfig where
  cases : List CCase
  default_target : String

/-- The `OPERATORS` table of `nodes/condition_node.py`, with the
`OPERATORS.get(operator_name, OPERATORS[...])` fallback to `equals` for
unknown names; a `ValueError`/`TypeError` raised by `float(...)` is
already folded into `false`, matching the `try/except` around the
operator call in `ConditionNode.route`. -/
def evalOp (opName : String) (a b : PyVal) : Bool :=
  if opName == "not_equals" then pyStrVal a != pyStrVal b
  else if opName == "contains" then strContains (pyStrVal a) (pyStrVal b)
  else if opName == "not_contains" then !(strContains (pyStrVal a) (pyStrVal b))
  else if opName == "greater_than" then
    match pyFloat a, pyFloat b with
    | some x, some y => decide (x > y)
    | _, _ => false
  else if opName == "less_than" then
    match pyFloat a, pyFloat b with
    | some x, some y => decide (x < y)
    | _, _ => false
  else if opName == "greater_equal" then
    match pyFloat a, pyFloat b with
    | some x, some y => decide (x ≥ y)
    | _, _ => false
  else if opName == "less_equal" then
    match pyFloat a, pyFloat b with
    | some x, some y => decide (x ≤ y)
    | _, _ => false
  else if opName == "is_empty" then !(pyTruthy a)
  else if opName == "is_not_empty" then pyTruthy a
  else if opName == "starts_with" then
    charsStartWith (pyStrVal a).toList (pyStrVal b).toList
  else if opName == "ends_with" then
    charsStartWith (pyStrVal a).toList.reverse (pyStrVal b).toList.reverse
  else pyStrVal a == pyStrVal b

/-- Evaluation of one condition inside `ConditionNode.route`: resolve
`left_var` (empty reference gives the empty string), resolve
`right_value` as a variable reference when it contains a dot and the
lookup is not `None`, then apply the operator. -/
def condEval (st : LGState) (c : CCond) : Bool :=
  let leftVal := if c.left_var.isEmpty then PyVal.vstr "" else getVariable st c.left_var
  let rightVal :=
    if c.right_value.toList.contains '.' then
      match getVariable st c.right_value with
      | PyVal.vnone => PyVal.vstr c.right_value
      | v => v
    else PyVal.vstr c.right_value
  evalOp c.operator leftVal rightVal

/-- Case matching in `ConditionNode.route`: `any` of the condition
results under `or` logic, `all` of them otherwise. -/
def caseMatches (st : LGState) (c : CCase) : Bool :=
  let results := c.conditions.map (condEval st)
  if c.logic == "or" then results.any (fun r => r) else results.all (fun r => r)

/-- The case loop of `ConditionNode.route`: cases with an empty
condition list are skipped; a matching case returns the first declared
target containing its id as substring (or equal to it), falling back to
the first declared target; when the target list is empty a matching
case falls through to the next case; after all cases, the
(truthy and declared) `default_target` or the last declared target is
returned, `__end__` when there are no targets. -/
def routeCases (targets : List String) (dflt : String) (st : LGState) :
    List CCase → String
  | [] =>
    if !dflt.isEmpty && targets.contains dflt then dflt
    else targets.getLastD "__end__"
  | c :: rest =>
    if c.conditions.isEmpty then routeCases targets dflt st rest
    else if caseMatches st c then
      match targets.find? (fun t => strContains t c.id || t == c.id) with
      | some t => t
      | Option.none =>
        if targets.contains c.id then c.id
        else
          match targets with
          | t :: _ => t
          | [] => routeCases targets dflt st rest
    else routeCases targets dflt st rest

/-- `ConditionNode.route`. -/
def conditionRoute (cfg : ConditionConfig) (targets : List String)
    (st : LGState) : String :=
  routeCases targets cfg.default_target st cfg.cases

/-- `ConditionNode.execute`: a condition node never modifies state. -/
def conditionExecute (_st : LGState) : StateUpdate := emptyUpdate

/-- Configuration of a loop node (`nodes/loop_node.py`); field values
are the results of the `.get(..., default)` calls in `LoopNode.route`. -/
structure LoopConfig where
  max_iterations : Int
  exit_condition : String
  exit_value : String
  loop_target : String
  exit_target : String

/-- `LoopNode.execute`: adds 1 to the iteration counter (via the
`operator.add` reducer) and records `current_iteration` in the node's
namespace. -/
def loopExecute (nodeId : String) (st : LGState) : StateUpdate :=
  ⟨Option.none,
   some [(nodeId, [("current_iteration", PyVal.vint (st.iteration_count + 1))])],
   Option.none, some 1, Option.none, Option.none, Option.none, Option.none⟩

/-- The exit expression of `LoopNode.route`:
`exit_target if exit_target in self.target_nodes else
(self.target_nodes[-1] if self.target_nodes else chr(95)..)`. -/
def loopExitChoice (cfg : LoopConfig) (targets : List String) : String :=
  if targets.contains cfg.exit_target then cfg.exit_target
  else targets.getLastD "__end__"

/-- `LoopNode.route`: exit when the iteration count reached
`max_iterations` or the exit-condition variable stringifies to
`exit_value`; otherwise continue to the declared `loop_target`, or the
first declared target. -/
def loopRoute (cfg : LoopConfig) (targets : List String) (st : LGState) : String :=
  if st.iteration_count ≥ cfg.max_iterations then loopExitChoice cfg targets
  else if !cfg.exit_condition.isEmpty &&
      pyStrVal (getVariable st cfg.exit_condition) == cfg.exit_value then
    loopExitChoice cfg targets
  else if !cfg.loop_target.isEmpty && targets.contains cfg.loop_target then
    cfg.loop_target
  else targets.headD "__end__"

/-- Configuration of a reflection node (`nodes/reflection_node.py`)
as read by `ReflectionNode.route`. -/
structure ReflectionConfig where
  max_reflections : Int
  retry_target : String
  accept_target : String

/-- `ReflectionNode.route`: the stored `accepted` verdict (truthiness of
`variables[node_id].get(..)` with default `False`) is forced to `True`
once `iteration_count` reached `max_reflections`; an accepted state
routes to the declared `accept_target` (or the last declared target),
a rejected one to the declared `retry_target` (or the first). -/
def reflectionRoute (nodeId : String) (cfg : ReflectionConfig)
    (targets : List String) (st : LGState) : String :=
  let nodeVars := (alookup st.vars nodeId).getD []
  let storedVerdict := (alookup nodeVars "accepted").getD (PyVal.vbool false)
  let accepted :=
    if st.iteration_count ≥ cfg.max_reflections then true
    else pyTruthy storedVerdict
  if accepted then
    if !cfg.accept_target.isEmpty && targets.contains cfg.accept_target then
      cfg.accept_target
    else targets.getLastD "__end__"
  else
    if !cfg.retry_target.isEmpty && targets.contains cfg.retry_target then
      cfg.retry_target
    else targets.headD "__end__"

/-- `HumanNode.execute`: writes the pending `human_feedback`
(`feedback or ""`, i.e. the empty string when `None` or empty) into the
node's `output_key` variable and resets `human_feedback` to `None`.
The emitted `human-input-request` stream event has no state effect and
is not modelled. -/
def humanExecute (nodeId outputKey : String) (st : LGState) : StateUpdate :=
  ⟨Option.none,
   some [(nodeId, [(outputKey, PyVal.vstr (st.human_feedback.getD ""))])],
   Option.none, Option.none, Option.none, some Option.none,
   Option.none, Option.none⟩

/-- Outcome of loading, building and running the child workflow inside
`SubGraphNode.execute`; the load/build/run themselves call external
collaborators (database lookup, LangGraph compile, model calls) and are
abstracted to their observable result. `failed` models any exception
raised inside the `try` block. -/
inductive ChildOutcome where
  | notFound : ChildOutcome
  | failed : String → ChildOutcome
  | succeeded : List (String × PyVal) → ChildOutcome

/-- `SubGraphNode.execute`: an empty `sub_workflow_id` or a missing
child workflow produce a textual error in the node's own namespace; an
exception anywhere in the `try` block is caught and produces the single
`SubGraph error: ...` value; a successful child run merges the mapped
output variables.  In every branch the returned partial update touches
only the `variables` field. -/
def subgraphExecute (nodeId outputKey subWorkflowId : String)
    (outcome : ChildOutcome) : StateUpdate :=
  if subWorkflowId.isEmpty then
    setVariable nodeId outputKey (PyVal.vstr "Error: No sub-workflow configured")
  else
    match outcome with
    | ChildOutcome.notFound =>
      setVariable nodeId outputKey
        (PyVal.vstr ("Error: Sub-workflow " ++ subWorkflowId ++ " not found"))
    | ChildOutcome.failed msg =>
      ⟨Option.none, some [(nodeId, [(outputKey, PyVal.vstr ("SubGraph error: " ++ msg))])],
       Option.none, Option.none, Option.none, Option.none, Option.none, Option.none⟩
    | ChildOutcome.succeeded outputVars =>
      ⟨Option.none, some [(nodeId, outputVars)],
       Option.none, Option.none, Option.none, Option.none, Option.none, Option.none⟩

/-- Worker-pool size of `MapReduceNode.execute`:
`min(max_concurrency, len(items))`. -/
def mapReduceWorkers (maxConcurrency n : Nat) : Nat := min maxConcurrency n

/-- The `as_completed` collection loop of `MapReduceNode.execute`: each
completed future stores its result at the index the future was submitted
with (`map_results[idx] = future.result()`), in completion order.
`f i` is the per-item result (`process_item(items[i])`, an external LLM
call abstracted as a function of the item index). -/
def fillResults {α : Type} (f : Nat → α) :
    List Nat → List (Option α) → List (Option α)
  | [], acc => acc
  | i :: rest, acc => fillResults f rest (acc.set i (some (f i)))

/-- The map phase of `MapReduceNode.execute`: `map_results` starts as
`[None] * len(items)` and is filled in completion order. -/
def mapPhase {α : Type} (f : Nat → α) (n : Nat) (order : List Nat) :
    List (Option α) :=
  fillResults f order (List.replicate n Option.none)

/-- An edge descriptor of the workflow JSON as read by
`LangGraphBuilder._parse_edges` (`data.back_edge` marks cycle edges). -/
structure EdgeData where
  source : String
  target : String
  back_edge : Bool

/-- A node descriptor of the workflow JSON as read by
`LangGraphBuilder._parse_nodes` (`data.id` / `data.type`). -/
structure NodeData where
  id : String
  type : String

/-- The workflow JSON (`nodes` and `edges` lists). -/
structure WorkflowData where
  nodes : List NodeData
  edges : List EdgeData

/-- The keys of `NODE_TYPE_MAP` in `nodes/__init__.py`: node types with
a registered behaviour class. -/
def knownNodeTypes : List String :=
  ["start", "end", "llm", "agent", "tool", "code", "condition", "human",
   "supervisor", "subgraph", "map_reduce", "loop", "reflection"]

/-- Whether `LangGraphBuilder._parse_nodes` instantiates this node:
it needs a non-empty id and type, must not be a `note`, and its type
must be registered in `NODE_TYPE_MAP`. -/
def nodeIsParsed (nd : NodeData) : Bool :=
  !nd.id.isEmpty && !nd.type.isEmpty && nd.type != "note" &&
    knownNodeTypes.contains nd.type

/-- `self.start_node_id` after `LangGraphBuilder._parse_nodes`: the id
of the last parsed node of type `start`, `none` when there is none. -/
def parseStartNodeId (nodes : List NodeData) : Option String :=
  nodes.foldl
    (fun acc nd =>
      if nodeIsParsed nd && nd.type == "start" then some nd.id else acc)
    Option.none

/-- `len(self.back_edges) > 0` after `LangGraphBuilder._parse_edges`:
edges with non-empty source and target whose data marks `back_edge`. -/
def hasBackEdge (w : WorkflowData) : Bool :=
  w.edges.any (fun e => !e.source.isEmpty && !e.target.isEmpty && e.back_edge)

/-- The recursion limit computed in `LangGraphBuilder.build`:
`max(node_count * max_steps, 50) if has_cycles else max(node_count * 3, 50)`
(`max_steps` defaults to 50). -/
def recursionLimit (nodeCount maxSteps : Nat) (hasCycles : Bool) : Nat :=
  if hasCycles then max (nodeCount * maxSteps) 50
  else max (nodeCount * 3) 50

/-- The entry-node check at the top of `LangGraphBuilder._add_edges`:
building raises `ValueError` when no start node was recorded during
parsing, before any run can begin. -/
def buildEntryCheck (w : WorkflowData) : Except String Unit :=
  match parseStartNodeId w.nodes with
  | Option.none => Except.error "LangGraph workflow must have a start node"
  | some _ => Except.ok ()

/-- The target a matched case is associated with, as the implementation
associates them: the first declared target containing the case id as a
substring (or equal to it), falling back to the first declared target.
Used by the specification-side route below. -/
def assocTargetSpec (targets : List String) (caseId : String) : String :=
  (targets.find? (fun t => strContains t caseId || t == caseId)).getD
    (targets.headD "__end__")

/-- Modelled from the spec's wording of the condition-node routing
rule, for comparison with `conditionRoute`: "route evaluates the
configured cases in declared order, a case matching iff all of its
conditions hold under logic `and` or at least one holds under logic
`or`; the first fully matching case routes to its associated target,
and when no case matches, route returns the configured default target
if it is among the declared targets, otherwise the last declared
target."  Note that under this wording a case with an empty condition
list matches vacuously under `and` logic. -/
def conditionRouteSpec (cfg : ConditionConfig) (targets : List String)
    (st : LGState) : String :=
  match cfg.cases.find? (fun c => caseMatches st c) with
  | some c => assocTargetSpec targets c.id
  | Option.none =>
    if targets.contains cfg.default_target then cfg.default_target
    else targets.getLastD "__end__"

/-- A partial update whose only populated field is `variables` (all
other state keys are absent from the returned dict). -/
def touchesOnlyVars (u : StateUpdate) : Prop :=
  u.messages = Option.none ∧ u.current_agent = Option.none ∧
  u.iteration_count = Option.none ∧ u.intermediate_results = Option.none ∧
  u.human_feedback = Option.none ∧ u.final_output = Option.none ∧
  u.metadata = Option.none

/-- The partial update `{iteration_count: 1}`. -/
def iterUpdate : StateUpdate :=
  ⟨Option.none, Option.none, Option.none, some 1, Option.none,
   Option.none, Option.none, Option.none⟩

/-- A partial update carrying exactly one node namespace in
`variables`. -/
def varsOnlyUpdate (nodeId : String) (ns : List (String × PyVal)) : StateUpdate :=
  ⟨Option.none, some [(nodeId, ns)], Option.none, Option.none, Option.none,
   Option.none, Option.none, Option.none⟩

theorem alookup_append {α : Type} (l₁ l₂ : List (String × α)) (k : String) :
    alookup (l₁ ++ l₂) k =
      match alookup l₁ k with
      | some v => some v
      | Option.none => alookup l₂ k := by
  induction l₁ with
  | nil => simp [alookup]
  | cons p rest ih =>
    obtain ⟨k2, v⟩ := p
    by_cases h : k2 == k
    · simp [alookup, h]
    · simp only [List.cons_append, alookup, h]
      simpa using ih

theorem alookup_map_override {α : Type} (l r : List (String × α)) (k : String) :
    alookup (l.map (fun p => (p.1, (alookup r p.1).getD p.2))) k =
      (alookup l k).map (fun v => (alookup r k).getD v) := by
  induction l with
  | nil => simp [alookup]
  | cons p rest ih =>
    obtain ⟨k2, v⟩ := p
    by_cases h : k2 == k
    · have hk : k2 = k := by simpa using h
      subst hk
      simp [alookup, h]
    · simp [alookup, h, ih]

theorem alookup_filter_keys {α : Type} (l r : List (String × α)) (k : String)
    (h : alookup l k = Option.none) :
    alookup (r.filter (fun p => (alookup l p.1).isNone)) k = alookup r k := by
  induction r with
  | nil => simp
  | cons p rest ih =>
    obtain ⟨k2, v⟩ := p
    by_cases hk : k2 == k
    · have hk2 : k2 = k := by simpa using hk
      subst hk2
      simp [List.filter, alookup, h, hk]
    · by_cases hp : (alookup l k2).isNone
      · simp [List.filter, alookup, hp, hk, ih]
      · simp [List.filter, alookup, hp, hk, ih]

theorem alookup_mergeDicts {α : Type} (l r : List (String × α)) (k : String) :
    alookup (mergeDicts l r) k =
      match alookup r k with
      | some v => some v
      | Option.none => alookup l k := by
  unfold mergeDicts
  rw [alookup_append, alookup_map_override]
  cases hl : alookup l k with
  | some v => cases hr : alookup r k <;> simp [hr]
  | none =>
    rw [alookup_filter_keys l r k hl]
    cases hr : alookup r k <;> simp [hr, hl]

/-- Claim C2: for a loop node whose exit target is among its declared
targets, once the state's iteration count has reached `max_iterations`
(each visit's `execute` having added 1 to the counter, which the second
conjunct states), `route` returns the exit target for every state —
in particular even when the exit-condition variable never equals the
exit value. -/
theorem loop_cap_forces_exit (cfg : LoopConfig) (targets : List String)
    (nodeId : String) (st : LGState)
    (hExit : cfg.exit_target ∈ targets)
    (hCount : cfg.max_iterations ≤ st.iteration_count) :
    loopRoute cfg targets st = cfg.exit_target ∧
    (applyUpdate st (loopExecute nodeId st)).iteration_count =
      st.iteration_count + 1 := by
  constructor
  · have hc : targets.contains cfg.exit_target = true := List.elem_iff.mpr hExit
    unfold loopRoute loopExitChoice
    rw [if_pos hCount, if_pos hc]
  · simp [applyUpdate, loopExecute]

/-- Witness for C2: a loop node with `max_iterations = 3` routes to
its exit target once the counter reached 3, although the exit-condition
variable is unset. -/
theorem loop_cap_forces_exit_witness :
    loopRoute ⟨3, "flag.done", "true", "body", "exit"⟩ ["body", "exit"]
        ⟨[], [], "", 3, [], Option.none, Option.none, []⟩ = "exit" ∧
    (applyUpdate ⟨[], [], "", 3, [], Option.none, Option.none, []⟩
        (loopExecute "loop1" ⟨[], [], "", 3, [], Option.none, Option.none, []⟩)).iteration_count = 4 :=
  loop_cap_forces_exit ⟨3, "flag.done", "true", "body", "exit"⟩ ["body", "exit"]
    "loop1" ⟨[], [], "", 3, [], Option.none, Option.none, []⟩
    (by decide) (by decide)

/-- Claim C3: a reflection node whose accept target is declared routes
to the accept target whenever the iteration count reached
`max_reflections`, regardless of the stored `accepted` verdict; below
the cap it routes to the accept target when the stored verdict is
truthy and to the declared retry target otherwise. -/
theorem reflection_cap_forces_accept (nodeId : String) (cfg : ReflectionConfig)
    (targets : List String) (st : LGState)
    (hA : cfg.accept_target ∈ targets) (hAne : cfg.accept_target ≠ "") :
    (cfg.max_reflections ≤ st.iteration_count →
      reflectionRoute nodeId cfg targets st = cfg.accept_target) ∧
    (st.iteration_count < cfg.max_reflections →
      pyTruthy ((alookup ((alookup st.vars nodeId).getD []) "accepted").getD
        (PyVal.vbool false)) = true →
      reflectionRoute nodeId cfg targets st = cfg.accept_target) ∧
    (st.iteration_count < cfg.max_reflections →
      pyTruthy ((alookup ((alookup st.vars nodeId).getD []) "accepted").getD
        (PyVal.vbool false)) = false →
      cfg.retry_target ∈ targets → cfg.retry_target ≠ "" →
      reflectionRoute nodeId cfg targets st = cfg.retry_target) := by
  have hAc : targets.contains cfg.accept_target = true := List.elem_iff.mpr hA
  have hAne2 : cfg.accept_target.isEmpty = false := by
    cases h : cfg.accept_target.isEmpty
    · rfl
    · exact absurd ((String.isEmpty_iff cfg.accept_target).mp h) hAne
  refine ⟨fun hCap => ?_, fun hLt hVerdict => ?_, fun hLt hVerdict hR hRne => ?_⟩
  · simp [reflectionRoute, ge_iff_le, hCap, hAc, hAne2, hA]
  · have hnCap : ¬ (cfg.max_reflections ≤ st.iteration_count) := by omega
    simp [reflectionRoute, ge_iff_le, hnCap, hVerdict, hAc, hAne2, hA]
  · have hnCap : ¬ (cfg.max_reflections ≤ st.iteration_count) := by omega
    have hRc : targets.contains cfg.retry_target = true := List.elem_iff.mpr hR
    have hRne2 : cfg.retry_target.isEmpty = false := by
      cases h : cfg.retry_target.isEmpty
      · rfl
      · exact absurd ((String.isEmpty_iff cfg.retry_target).mp h) hRne
    simp [reflectionRoute, ge_iff_le, hnCap, hVerdict, hRc, hRne2, hR]

/-- Witness for C3: with `max_reflections = 2`, the second visit routes
to the accept target although the stored verdict is a rejection; below
the cap the same rejected verdict routes to the retry target. -/
theorem reflection_cap_forces_accept_witness :
    reflectionRoute "refl1" ⟨2, "gen", "next"⟩ ["gen", "next"]
      ⟨[], [("refl1", [("accepted", PyVal.vbool false)])], "", 2, [],
       Option.none, Option.none, []⟩ = "next" ∧
    reflectionRoute "refl1" ⟨2, "gen", "next"⟩ ["gen", "next"]
      ⟨[], [("refl1", [("accepted", PyVal.vbool false)])], "", 1, [],
       Option.none, Option.none, []⟩ = "gen" :=
  ⟨(reflection_cap_forces_accept "refl1" ⟨2, "gen", "next"⟩ ["gen", "next"]
      ⟨[], [("refl1", [("accepted", PyVal.vbool false)])], "", 2, [],
       Option.none, Option.none, []⟩ (by decide) (by decide)).1 (by decide),
   (reflection_cap_forces_accept "refl1" ⟨2, "gen", "next"⟩ ["gen", "next"]
      ⟨[], [("refl1", [("accepted", PyVal.vbool false)])], "", 1, [],
       Option.none, Option.none, []⟩ (by decide) (by decide)).2.2
     (by decide) (by decide) (by decide) (by decide)⟩

/-- Counterexample to C5 as stated: a one-node workflow with a marked
back-edge gets exactly the same recursion limit (the floor of 50) as a
one-node workflow without back-edges, so the back-edge bound does not
strictly exceed the no-cycle bound for every node count. -/
theorem recursion_limit_no_strict_increase_at_one_node :
    hasBackEdge ⟨[⟨"a", "llm"⟩], [⟨"a", "a", true⟩]⟩ = true ∧
    recursionLimit 1 50 (hasBackEdge ⟨[⟨"a", "llm"⟩], [⟨"a", "a", true⟩]⟩) =
      recursionLimit 1 50 false := by
  constructor
  · rfl
  · rfl

/-- Claim C5 (amended): with the default per-step cap of 50, for every
workflow containing a back-edge and every node count of at least 2, the
compiled recursion limit strictly exceeds the limit computed for the
same node count without back-edges; at node count 0 or 1 both bounds
coincide at the floor of 50. -/
theorem recursion_limit_backedge_exceeds (w : WorkflowData) (n : Nat)
    (hB : hasBackEdge w = true) (hn : 2 ≤ n) :
    recursionLimit n 50 false < recursionLimit n 50 (hasBackEdge w) := by
  rw [hB]
  have h1 : recursionLimit n 50 true = max (n * 50) 50 := rfl
  have h2 : recursionLimit n 50 false = max (n * 3) 50 := rfl
  rw [h1, h2]
  omega

/-- Witness for C5 (amended): a two-node workflow with a back-edge gets
limit 100 against the 50 of the same size without back-edges. -/
theorem recursion_limit_backedge_exceeds_witness :
    recursionLimit 2 50 false <
      recursionLimit 2 50 (hasBackEdge ⟨[⟨"a", "llm"⟩, ⟨"b", "llm"⟩], [⟨"b", "a", true⟩]⟩) :=
  recursion_limit_backedge_exceeds ⟨[⟨"a", "llm"⟩, ⟨"b", "llm"⟩], [⟨"b", "a", true⟩]⟩ 2
    (by decide) (by decide)

theorem parseStart_foldl_const (l : List NodeData) (acc : Option String)
    (h : ∀ nd ∈ l, nd.type ≠ "start") :
    l.foldl
      (fun acc nd =>
        if nodeIsParsed nd && nd.type == "start" then some nd.id else acc)
      acc = acc := by
  induction l generalizing acc with
  | nil => rfl
  | cons nd rest ih =>
    have hnd : nd.type ≠ "start" := h nd (List.mem_cons_self nd rest)
    have hbeq : (nd.type == "start") = false := by
      simpa using hnd
    simp only [List.foldl_cons, hbeq, Bool.and_false, if_false]
    exact ih acc (fun x hx => h x (List.mem_cons_of_mem nd hx))

/-- Claim C6: a workflow whose node list contains no node of type
`start` records no entry node during parsing, and building it fails
with the configuration error raised in `_add_edges` — so the run never
starts. -/
theorem no_start_node_build_fails (w : WorkflowData)
    (h : ∀ nd ∈ w.nodes, nd.type ≠ "start") :
    parseStartNodeId w.nodes = Option.none ∧
    buildEntryCheck w =
      Except.error "LangGraph workflow must have a start node" := by
  have hp : parseStartNodeId w.nodes = Option.none :=
    parseStart_foldl_const w.nodes Option.none h
  refine ⟨hp, ?_⟩
  unfold buildEntryCheck
  rw [hp]

/-- Witness for C6: a two-node workflow (an llm node and an end node,
no start node) fails the entry check. -/
theorem no_start_node_build_fails_witness :
    parseStartNodeId [⟨"n1", "llm"⟩, ⟨"n2", "end"⟩] = Option.none ∧
    buildEntryCheck ⟨[⟨"n1", "llm"⟩, ⟨"n2", "end"⟩], [⟨"n1", "n2", false⟩]⟩ =
      Except.error "LangGraph workflow must have a start node" :=
  no_start_node_build_fails ⟨[⟨"n1", "llm"⟩, ⟨"n2", "end"⟩], [⟨"n1", "n2", false⟩]⟩
    (by decide)

theorem isEmpty_eq_false_of_ne {s : String} (h : s ≠ "") : s.isEmpty = false := by
  cases hs : s.isEmpty
  · rfl
  · exact absurd ((String.isEmpty_iff s).mp hs) h

/-- Claim C4: the per-field reducers satisfy the two stated laws:
starting from the default state, two sequential `{iteration_count: 1}`
updates yield `iteration_count = 2` (additive merge), and merging a
`variables` update that carries only node `a`'s namespace leaves every
other node `b`'s namespace exactly unchanged. -/
theorem reducers_add_and_isolate_namespaces :
    (applyUpdate (applyUpdate defaultState iterUpdate) iterUpdate).iteration_count = 2 ∧
    ∀ (st : LGState) (a : String) (ns : List (String × PyVal)) (b : String),
      b ≠ a →
      alookup (applyUpdate st (varsOnlyUpdate a ns)).vars b = alookup st.vars b := by
  constructor
  · rfl
  · intro st a ns b hne
    show alookup (mergeDicts st.vars [(a, ns)]) b = alookup st.vars b
    rw [alookup_mergeDicts]
    have hz : alookup [(a, ns)] b = Option.none := by
      simp [alookup, show a ≠ b from fun h => hne h.symm]
    rw [hz]

/-- Witness for C4: concrete instance — node `A`'s update leaves node
`B`'s namespace untouched, and the double increment yields 2. -/
theorem reducers_add_and_isolate_namespaces_witness :
    (applyUpdate (applyUpdate defaultState iterUpdate) iterUpdate).iteration_count = 2 ∧
    alookup (applyUpdate
        ⟨[], [("B", [("k", PyVal.vstr "keep")])], "", 0, [], Option.none, Option.none, []⟩
        (varsOnlyUpdate "A" [("out", PyVal.vstr "new")])).vars "B" =
      alookup [("B", [("k", PyVal.vstr "keep")])] "B" :=
  ⟨reducers_add_and_isolate_namespaces.1,
   reducers_add_and_isolate_namespaces.2
     ⟨[], [("B", [("k", PyVal.vstr "keep")])], "", 0, [], Option.none, Option.none, []⟩
     "A" [("out", PyVal.vstr "new")] "B" (by decide)⟩

/-- Claim C8: the human node's `execute` returns a partial update that
writes the pending `human_feedback` (the empty string when none is
pending) into the configured output variable and simultaneously sets
`human_feedback` to `None`; after the merge the output variable holds
the consumed feedback and `human_feedback` is empty for the following
step. -/
theorem human_feedback_consumed_once (nodeId outputKey : String) (st : LGState) :
    (humanExecute nodeId outputKey st).human_feedback = some Option.none ∧
    (humanExecute nodeId outputKey st).vars =
      some [(nodeId, [(outputKey, PyVal.vstr (st.human_feedback.getD ""))])] ∧
    (applyUpdate st (humanExecute nodeId outputKey st)).human_feedback = Option.none ∧
    alookup ((alookup (applyUpdate st (humanExecute nodeId outputKey st)).vars
        nodeId).getD []) outputKey =
      some (PyVal.vstr (st.human_feedback.getD "")) := by
  refine ⟨rfl, rfl, rfl, ?_⟩
  show alookup ((alookup (mergeDicts st.vars
      [(nodeId, [(outputKey, PyVal.vstr (st.human_feedback.getD ""))])])
      nodeId).getD []) outputKey = _
  rw [alookup_mergeDicts]
  have hz : alookup [(nodeId, [(outputKey, PyVal.vstr (st.human_feedback.getD ""))])]
      nodeId = some [(outputKey, PyVal.vstr (st.human_feedback.getD ""))] := by
    simp [alookup]
  rw [hz]
  simp [alookup]

/-- Claim C9: every failure while loading, building, or running the
child workflow is absorbed by the subgraph node: the returned partial
update only writes a single textual error value into the subgraph
node's own variable namespace (every other state key is absent), so the
exception never propagates to the parent run. -/
theorem subgraph_failure_contained (nodeId outputKey subId msg : String)
    (hSub : subId ≠ "") :
    (subgraphExecute nodeId outputKey subId (ChildOutcome.failed msg)).vars =
      some [(nodeId, [(outputKey, PyVal.vstr ("SubGraph error: " ++ msg))])] ∧
    (subgraphExecute nodeId outputKey subId ChildOutcome.notFound).vars =
      some [(nodeId, [(outputKey,
        PyVal.vstr ("Error: Sub-workflow " ++ subId ++ " not found"))])] ∧
    ∀ oc : ChildOutcome, touchesOnlyVars (subgraphExecute nodeId outputKey subId oc) := by
  have hS : subId.isEmpty = false := isEmpty_eq_false_of_ne hSub
  refine ⟨?_, ?_, ?_⟩
  · simp [subgraphExecute, hS]
  · simp [subgraphExecute, hS, setVariable]
  · intro oc
    cases oc <;> simp [subgraphExecute, hS, setVariable, touchesOnlyVars]

/-- Witness for C9: a concrete child failure is turned into the single
`SubGraph error: ...` value in the node's namespace. -/
theorem subgraph_failure_contained_witness :
    (subgraphExecute "sg1" "output" "wf42" (ChildOutcome.failed "boom")).vars =
      some [("sg1", [("output", PyVal.vstr "SubGraph error: boom")])] :=
  (subgraph_failure_contained "sg1" "output" "wf42" "boom" (by decide)).1

theorem fillResults_length {α : Type} (f : Nat → α) (order : List Nat)
    (acc : List (Option α)) :
    (fillResults f order acc).length = acc.length := by
  induction order generalizing acc with
  | nil => rfl
  | cons i rest ih => simp [fillResults, ih]

theorem fillResults_getElem? {α : Type} (f : Nat → α) (order : List Nat)
    (acc : List (Option α)) (j : Nat) :
    (fillResults f order acc)[j]? =
      if j ∈ order ∧ j < acc.length then some (some (f j)) else acc[j]? := by
  induction order generalizing acc with
  | nil => simp [fillResults]
  | cons i rest ih =>
    rw [show fillResults f (i :: rest) acc =
        fillResults f rest (acc.set i (some (f i))) from rfl]
    rw [ih]
    simp only [List.length_set, List.mem_cons]
    split_ifs with h1 h2 h2
    · rfl
    · exact absurd ⟨Or.inr h1.1, h1.2⟩ h2
    · rcases h2 with ⟨hj, hjl⟩
      rcases hj with hj | hj
      · subst hj
        exact List.getElem?_set_self hjl
      · exact absurd ⟨hj, hjl⟩ h1
    · by_cases hji : j = i
      · subst hji
        have hle : acc.length ≤ j := by
          by_contra hlt
          exact h2 ⟨Or.inl rfl, Nat.lt_of_not_le hlt⟩
        rw [List.set_eq_of_length_le hle]
      · exact List.getElem?_set_ne (fun h => hji h.symm)

/-- Claim C7: the map-reduce node's worker pool has size
`min(max_concurrency, n)`, and for every completion order that delivers
each of the `n` submitted futures exactly once, the collected
`map_results` list has length `n` with item `i`'s result at index `i` —
original order regardless of completion order. The per-item work
(an external LLM call) is abstracted as the function `process`. -/
theorem map_reduce_preserves_order {α : Type} (process : String → α)
    (items : List String) (maxConcurrency : Nat) (order : List Nat)
    (hOrd : order.Perm (List.range items.length)) :
    mapPhase (fun i => process (items.getD i "")) items.length order =
      items.map (fun x => some (process x)) ∧
    (mapPhase (fun i => process (items.getD i "")) items.length order).length =
      items.length ∧
    mapReduceWorkers maxConcurrency items.length =
      min maxConcurrency items.length := by
  have hmain : mapPhase (fun i => process (items.getD i "")) items.length order =
      items.map (fun x => some (process x)) := by
    apply List.ext_getElem?
    intro j
    rw [show mapPhase (fun i => process (items.getD i "")) items.length order =
        fillResults (fun i => process (items.getD i "")) order
          (List.replicate items.length Option.none) from rfl]
    rw [fillResults_getElem?]
    simp only [List.length_replicate]
    have hmem : j ∈ order ↔ j < items.length := by
      rw [hOrd.mem_iff, List.mem_range]
    by_cases hj : j < items.length
    · rw [if_pos ⟨hmem.mpr hj, hj⟩]
      have hmap : (items.map (fun x => some (process x)))[j]? =
          (items[j]?).map (fun x => some (process x)) :=
        List.getElem?_map (fun x => some (process x)) items j
      rw [hmap, List.getElem?_eq_getElem hj]
      rw [List.getD_eq_getElem items "" hj]
      rfl
    · rw [if_neg (fun h => hj h.2)]
      have h1 : (List.replicate items.length (Option.none : Option α))[j]? =
          Option.none := by
        apply List.getElem?_eq_none
        simpa using Nat.le_of_not_lt hj
      have h2 : (items.map (fun x => some (process x)))[j]? = Option.none := by
        apply List.getElem?_eq_none
        simpa using Nat.le_of_not_lt hj
      rw [h1, h2]
  refine ⟨hmain, ?_, rfl⟩
  rw [hmain]
  simp

/-- Witness for C7: mapping over `["a","b","c"]` with completion order
2,0,1 still collects the results in original item order. -/
theorem map_reduce_preserves_order_witness :
    mapPhase (fun i => (["a", "b", "c"].getD i "") ++ "!") 3 [2, 0, 1] =
      [some "a!", some "b!", some "c!"] :=
  (map_reduce_preserves_order (fun s => s ++ "!") ["a", "b", "c"] 2 [2, 0, 1]
    (by decide)).1

theorem contains_false_of_find?_none (targets : List String) (caseId : String)
    (hf : targets.find? (fun t => strContains t caseId || t == caseId) =
      Option.none) :
    targets.contains caseId = false := by
  cases hcc : targets.contains caseId
  · rfl
  · exfalso
    have hmem : caseId ∈ targets := List.elem_iff.mp hcc
    have hnp := List.find?_eq_none.mp hf caseId hmem
    apply hnp
    simp

theorem isEmpty_false_of_mem {targets : List String} {x : String}
    (hE : "" ∉ targets) (hx : x ∈ targets) : x.isEmpty = false :=
  isEmpty_eq_false_of_ne (fun h => hE (h ▸ hx))

theorem routeCases_eq_spec (targets : List String) (dflt : String)
    (st : LGState) (cs : List CCase) (hT : targets ≠ []) (hE : "" ∉ targets)
    (hC : ∀ c ∈ cs, c.conditions ≠ []) :
    routeCases targets dflt st cs =
      match cs.find? (fun c => caseMatches st c) with
      | some c => assocTargetSpec targets c.id
      | Option.none =>
        if targets.contains dflt then dflt
        else targets.getLastD "__end__" := by
  obtain ⟨t0, ts, rfl⟩ : ∃ t0 ts, targets = t0 :: ts := by
    cases targets with
    | nil => exact absurd rfl hT
    | cons t0 ts => exact ⟨t0, ts, rfl⟩
  induction cs with
  | nil =>
    simp only [routeCases, List.find?_nil]
    cases hd : (t0 :: ts).contains dflt
    · simp [hd]
    · have hdm : dflt ∈ t0 :: ts := List.elem_iff.mp hd
      have hie : dflt.isEmpty = false := isEmpty_false_of_mem hE hdm
      simp [hd, hie]
  | cons c rest ih =>
    have hc : c.conditions ≠ [] := hC c (List.mem_cons_self c rest)
    have hcE : c.conditions.isEmpty = false := by
      cases h : c.conditions.isEmpty
      · rfl
      · exact absurd (List.isEmpty_iff.mp h) hc
    cases hm : caseMatches st c
    · have hfind : (c :: rest).find? (fun x => caseMatches st x) =
          rest.find? (fun x => caseMatches st x) :=
        List.find?_cons_of_neg rest (by simp [hm])
      rw [hfind]
      have hskip : routeCases (t0 :: ts) dflt st (c :: rest) =
          routeCases (t0 :: ts) dflt st rest := by
        simp [routeCases, hcE, hm]
      rw [hskip]
      exact ih (fun x hx => hC x (List.mem_cons_of_mem c hx))
    · have hfind : (c :: rest).find? (fun x => caseMatches st x) = some c :=
        List.find?_cons_of_pos rest (by simp [hm])
      rw [hfind]
      cases hf : (t0 :: ts).find? (fun t => strContains t c.id || t == c.id) with
      | some t =>
        simp [routeCases, hcE, hm, hf, assocTargetSpec]
      | none =>
        have hnc : (t0 :: ts).contains c.id = false :=
          contains_false_of_find?_none (t0 :: ts) c.id hf
        simp only [routeCases, hcE, hm, hf, hnc, assocTargetSpec]
        simp [List.mem_cons]

/-- Counterexample to C1 as stated: a case with an *empty* condition
list under `and` logic matches vacuously under the claim's wording
("all of its conditions hold"), so the claimed routing sends the state
to that case's target `t1`; the implementation instead skips cases with
no conditions, finds no match, and falls back to the last declared
target `t2`. -/
theorem condition_route_empty_case_counterexample :
    conditionRoute ⟨[⟨"t1", [], "and"⟩], ""⟩ ["t1", "t2"] defaultState = "t2" ∧
    conditionRouteSpec ⟨[⟨"t1", [], "and"⟩], ""⟩ ["t1", "t2"] defaultState = "t1" ∧
    ("t2" : String) ≠ "t1" := by
  refine ⟨rfl, rfl, by decide⟩

/-- Claim C1 (amended): for every state and condition-node
configuration in which every case has at least one condition (cases
with an empty condition list are skipped by the implementation), and
whose declared target list is non-empty and contains no empty id,
`route` behaves exactly as the claim describes: cases are evaluated in
declared order, a case matches iff all of its conditions hold under
`and` logic or at least one holds under `or` logic, the first matching
case routes to its associated target, and when no case matches the
(declared) default target — otherwise the last declared target — is
returned.  `conditionRouteSpec` is that description verbatim. -/
theorem condition_route_matches_spec (cfg : ConditionConfig)
    (targets : List String) (st : LGState) (hT : targets ≠ [])
    (hE : "" ∉ targets) (hC : ∀ c ∈ cfg.cases, c.conditions ≠ []) :
    conditionRoute cfg targets st = conditionRouteSpec cfg targets st := by
  unfold conditionRoute conditionRouteSpec
  exact routeCases_eq_spec targets cfg.default_target st cfg.cases hT hE hC

/-- Witness for C1 (amended): the two-case `and`/`or` configuration of
the spec's example routes identically in implementation and
specification reading; on a state with `a = "7"`, `b = "x"` the first
case wins. -/
theorem condition_route_matches_spec_witness :
    conditionRoute
      ⟨[⟨"caseA", [⟨"n1.a", "greater_than", "5"⟩, ⟨"n1.b", "equals", "x"⟩], "and"⟩,
        ⟨"caseB", [⟨"n1.c", "equals", "y"⟩, ⟨"n1.d", "not_equals", ""⟩], "or"⟩], ""⟩
      ["caseA_node", "caseB_node"]
      ⟨[], [("n1", [("a", PyVal.vstr "7"), ("b", PyVal.vstr "x")])], "", 0, [],
       Option.none, Option.none, []⟩ =
    conditionRouteSpec
      ⟨[⟨"caseA", [⟨"n1.a", "greater_than", "5"⟩, ⟨"n1.b", "equals", "x"⟩], "and"⟩,
        ⟨"caseB", [⟨"n1.c", "equals", "y"⟩, ⟨"n1.d", "not_equals", ""⟩], "or"⟩], ""⟩
      ["caseA_node", "caseB_node"]
      ⟨[], [("n1", [("a", PyVal.vstr "7"), ("b", PyVal.vstr "x")])], "", 0, [],
       Option.none, Option.none, []⟩ :=
  condition_route_matches_spec
    ⟨[⟨"caseA", [⟨"n1.a", "greater_than", "5"⟩, ⟨"n1.b", "equals", "x"⟩], "and"⟩,
      ⟨"caseB", [⟨"n1.c", "equals", "y"⟩, ⟨"n1.d", "not_equals", ""⟩], "or"⟩], ""⟩
    ["caseA_node", "caseB_node"]
    ⟨[], [("n1", [("a", PyVal.vstr "7"), ("b", PyVal.vstr "x")])], "", 0, [],
     Option.none, Option.none, []⟩
    (by decide) (by decide) (by decide)

theorem getLastD_mem (t0 : String) (ts : List String) (d : String) :
    (t0 :: ts).getLastD d ∈ t0 :: ts := by
  induction ts generalizing t0 with
  | nil => simp [List.getLastD]
  | cons t1 ts ih =>
    have hstep : (t0 :: t1 :: ts).getLastD d = (t1 :: ts).getLastD d := by
      simp [List.getLastD, List.getLast?_cons_cons]
    rw [hstep]
    exact List.mem_cons_of_mem t0 (ih t1)

theorem routeCases_mem (t0 : String) (ts : List String) (dflt : String)
    (st : LGState) (cs : List CCase) :
    routeCases (t0 :: ts) dflt st cs ∈ t0 :: ts := by
  induction cs with
  | nil =>
    simp only [routeCases]
    split_ifs with h
    · exact List.elem_iff.mp (Bool.and_elim_right h)
    · exact getLastD_mem t0 ts "__end__"
  | cons c rest ih =>
    cases hcE : c.conditions.isEmpty
    · cases hm : caseMatches st c
      · have hstep : routeCases (t0 :: ts) dflt st (c :: rest) =
            routeCases (t0 :: ts) dflt st rest := by
          simp [routeCases, hcE, hm]
        rw [hstep]
        exact ih
      · cases hf : (t0 :: ts).find? (fun t => strContains t c.id || t == c.id) with
        | some t =>
          have hstep : routeCases (t0 :: ts) dflt st (c :: rest) = t := by
            simp [routeCases, hcE, hm, hf]
          rw [hstep]
          exact List.mem_of_find?_eq_some hf
        | none =>
          have hnc : (t0 :: ts).contains c.id = false :=
            contains_false_of_find?_none (t0 :: ts) c.id hf
          have hstep : routeCases (t0 :: ts) dflt st (c :: rest) = t0 := by
            simp only [routeCases, hcE, hm, hf, hnc]
            simp [List.mem_cons]
          rw [hstep]
          exact List.mem_cons_self t0 ts
    · have hstep : routeCases (t0 :: ts) dflt st (c :: rest) =
          routeCases (t0 :: ts) dflt st rest := by
        simp [routeCases, hcE]
      rw [hstep]
      exact ih

theorem routeCases_nil_end (dflt : String) (st : LGState) (cs : List CCase) :
    routeCases [] dflt st cs = "__end__" := by
  induction cs with
  | nil => simp [routeCases]
  | cons c rest ih =>
    cases hcE : c.conditions.isEmpty
    · cases hm : caseMatches st c
      · simp [routeCases, hcE, hm, ih]
      · simp [routeCases, hcE, hm, ih]
    · simp [routeCases, hcE, ih]

/-- Claim C10: with at least one declared target, `ConditionNode.route`
always returns a declared target — a matched case whose id matches no
declared target falls back to the first declared target (third
conjunct) — so the run-time "router returned an unregistered id"
failure is unreachable for condition nodes; the `__end__` sentinel is
returned only when the node has no declared targets (second
conjunct). -/
theorem condition_route_returns_declared_target (cfg : ConditionConfig)
    (targets : List String) (st : LGState) :
    (targets ≠ [] → conditionRoute cfg targets st ∈ targets) ∧
    (targets = [] → conditionRoute cfg targets st = "__end__") ∧
    (∀ c rest, cfg.cases = c :: rest → c.conditions ≠ [] →
      caseMatches st c = true →
      (∀ t ∈ targets, (strContains t c.id || t == c.id) = false) →
      targets ≠ [] →
      conditionRoute cfg targets st = targets.headD "__end__") := by
  refine ⟨fun hT => ?_, fun hT => ?_, fun c rest hcs hc hm hassoc hT => ?_⟩
  · obtain ⟨t0, ts, rfl⟩ : ∃ t0 ts, targets = t0 :: ts := by
      cases targets with
      | nil => exact absurd rfl hT
      | cons t0 ts => exact ⟨t0, ts, rfl⟩
    exact routeCases_mem t0 ts cfg.default_target st cfg.cases
  · subst hT
    exact routeCases_nil_end cfg.default_target st cfg.cases
  · obtain ⟨t0, ts, rfl⟩ : ∃ t0 ts, targets = t0 :: ts := by
      cases targets with
      | nil => exact absurd rfl hT
      | cons t0 ts => exact ⟨t0, ts, rfl⟩
    unfold conditionRoute
    rw [hcs]
    have hcE : c.conditions.isEmpty = false := by
      cases h : c.conditions.isEmpty
      · rfl
      · exact absurd (List.isEmpty_iff.mp h) hc
    have hf : (t0 :: ts).find? (fun t => strContains t c.id || t == c.id) =
        Option.none :=
      List.find?_eq_none.mpr (fun x hx => by simp [hassoc x hx])
    have hnc : (t0 :: ts).contains c.id = false :=
      contains_false_of_find?_none (t0 :: ts) c.id hf
    simp only [routeCases, hcE, hm, hf, hnc]
    simp [List.mem_cons]

/-- Witness for C10: a condition node with declared targets
`["n4", "n5"]` and a matching case whose id matches neither target
still routes inside the declared target list. -/
theorem condition_route_returns_declared_target_witness :
    conditionRoute ⟨[⟨"caseZ", [⟨"", "is_empty", ""⟩], "and"⟩], "zzz"⟩
      ["n4", "n5"] defaultState ∈ ["n4", "n5"] :=
  (condition_route_returns_declared_target
    ⟨[⟨"caseZ", [⟨"", "is_empty", ""⟩], "and"⟩], "zzz"⟩ ["n4", "n5"]
    defaultState).1 (by decide)
